import Mathlib

/-!
A shallow embedding of `zenoh/closures.py`: the `Closure` / `Handler`
normalization layer and the two concrete receivers, `ListCollector` and
`Queue`.

Modelling conventions:
* Mutable per-instance state (`self._vec_`, `self._done_`) becomes an explicit
  state record; each method becomes a pure function from state (and inputs) to
  state (and result).
* The values a producer may deliver while a consumer is blocked inside a
  condition-variable `wait` are modelled by a list of events (`call v` /
  `drop`) applied to the state during that wait.  A wait that wakes with no
  producer activity (timeout elapsed, spurious wake) is the empty event list.
* Python exceptions become explicit result constructors (`Except` / a result
  inductive); a Python `return` with no value becomes its own constructor,
  distinct from returning a list.
* Wrapped callbacks are modelled as state transformers `α → σ → σ` (call) and
  `σ → σ` (drop) over an abstract state type `σ`, so "behaves identically to
  the wrapped original" is plain function equality.
-/

namespace Zenoh

/-! ## Closure normalization (`Closure.__init__`, closures.py lines 42-68) -/

/-- The `(call, drop)` pair a `Closure` exposes, over value type `α` and an
abstract effect-state `σ`. -/
structure ClosureRep (α σ : Type) where
  call : α → σ → σ
  drop : σ → σ

/-- The error kinds of the module: the `TypeError` raised by `Closure.__init__`
on an unsupported input shape. -/
inductive CErr : Type
  | unsupportedInputShape
  deriving DecidableEq, Repr

/-- The accepted input shapes of `Closure.__init__` (the `IntoClosure` union):
an `IHandler` (whose closure is extracted), an `IClosure`, a `(call, drop)`
tuple, a bare callable, or anything else (`other`). -/
inductive IntoClosure (α σ : Type) : Type
  | handler (c : ClosureRep α σ)
  | closureIn (c : ClosureRep α σ)
  | pair (call : α → σ → σ) (drop : σ → σ)
  | callableOnly (call : α → σ → σ)
  | other

/-- `Closure.__init__` with `type_adaptor = None`: dispatch on the input shape,
copying `call`/`drop` (drop defaults to the no-op `lambda: None` for a bare
callable) and raising `TypeError` otherwise. -/
def closureInit {α σ : Type} : IntoClosure α σ → Except CErr (ClosureRep α σ)
  | IntoClosure.handler c => Except.ok c
  | IntoClosure.closureIn c => Except.ok c
  | IntoClosure.pair f d => Except.ok { call := f, drop := d }
  | IntoClosure.callableOnly f => Except.ok { call := f, drop := fun s => s }
  | IntoClosure.other => Except.error CErr.unsupportedInputShape

/-- `Closure.__init__` with a `type_adaptor` `ta`: as `closureInit`, but the
stored call becomes `lambda *args: _call_(type_adaptor(*args))`; `drop` is
stored unchanged. -/
def closureInitAdapted {α β σ : Type} (ta : β → α) :
    IntoClosure α σ → Except CErr (ClosureRep β σ)
  | IntoClosure.handler c =>
      Except.ok { call := fun b => c.call (ta b), drop := c.drop }
  | IntoClosure.closureIn c =>
      Except.ok { call := fun b => c.call (ta b), drop := c.drop }
  | IntoClosure.pair f d =>
      Except.ok { call := fun b => f (ta b), drop := d }
  | IntoClosure.callableOnly f =>
      Except.ok { call := fun b => f (ta b), drop := fun s => s }
  | IntoClosure.other => Except.error CErr.unsupportedInputShape

/-! ## Handler normalization (`Handler.__init__`, closures.py lines 71-96) -/

/-- The `(closure, receiver)` pair a `Handler` exposes; the receiver is
`None`-able (`self._receiver_ = None` initially). -/
structure HandlerRep (α σ ρ : Type) where
  closure : ClosureRep α σ
  receiver : Option ρ

/-- The accepted input shapes of `Handler.__init__` (the `IntoHandler` union).
A handler input carries a possibly-`None` receiver of its own. -/
inductive IntoHandler (α σ ρ : Type) : Type
  | handlerIn (c : ClosureRep α σ) (r : Option ρ)
  | closureIn (c : ClosureRep α σ)
  | closureRecvPair (c : ClosureRep α σ) (r : ρ)
  | triple (call : α → σ → σ) (drop : σ → σ) (r : ρ)
  | pair (call : α → σ → σ) (drop : σ → σ)
  | callableOnly (call : α → σ → σ)
  | other

/-- `Handler.__init__`: pick the receiver out of the input, then funnel the
closure-shaped part through `Closure.__init__`
(`self._closure_ = Closure(self._closure_, type_adaptor)`, line 89). -/
def handlerInit {α σ ρ : Type} : IntoHandler α σ ρ → Except CErr (HandlerRep α σ ρ)
  | IntoHandler.handlerIn c r =>
      (closureInit (IntoClosure.closureIn c)).map (fun cl => ⟨cl, r⟩)
  | IntoHandler.closureIn c =>
      (closureInit (IntoClosure.closureIn c)).map (fun cl => ⟨cl, none⟩)
  | IntoHandler.closureRecvPair c r =>
      (closureInit (IntoClosure.closureIn c)).map (fun cl => ⟨cl, some r⟩)
  | IntoHandler.triple f d r =>
      (closureInit (IntoClosure.pair f d)).map (fun cl => ⟨cl, some r⟩)
  | IntoHandler.pair f d =>
      (closureInit (IntoClosure.pair f d)).map (fun cl => ⟨cl, none⟩)
  | IntoHandler.callableOnly f =>
      (closureInit (IntoClosure.callableOnly f)).map (fun cl => ⟨cl, none⟩)
  | IntoHandler.other =>
      (closureInit (IntoClosure.other : IntoClosure α σ)).map (fun cl => ⟨cl, none⟩)

/-! ## Queue (closures.py lines 126-193) -/

/-- `Queue` instance state: `self._vec_` (a deque, appended at the right) and
`self._done_`. -/
structure QState (V : Type) where
  vec : List V
  done : Bool
  deriving DecidableEq, Repr

/-- `Queue.closure`'s `call(x)`: `self._vec_.append(x)` (append at the right)
and notify. -/
def Queue.call {V : Type} (v : V) (s : QState V) : QState V :=
  { s with vec := s.vec ++ [v] }

/-- `Queue.closure`'s `drop()`: `self._done_ = True` and notify. -/
def Queue.drop {V : Type} (s : QState V) : QState V :=
  { s with done := true }

/-- A producer action that can happen while a consumer is blocked in a wait. -/
inductive QEvent (V : Type) : Type
  | call (v : V)
  | drop
  deriving DecidableEq, Repr

/-- Apply a sequence of producer events to the queue state. -/
def applyQEvents {V : Type} : List (QEvent V) → QState V → QState V
  | [], s => s
  | QEvent.call v :: es, s => applyQEvents es (Queue.call v s)
  | QEvent.drop :: es, s => applyQEvents es (Queue.drop s)

/-- The input `Queue.closure` feeds to `Closure(...)`: the `(call, drop)`
tuple of line 148. -/
def Queue.closureInput {V : Type} : IntoClosure V (QState V) :=
  IntoClosure.pair Queue.call Queue.drop

/-- The errors `Queue.get` can raise: `QueueClosed` and `TimeoutError`. -/
inductive QErr : Type
  | closed
  | timeout
  deriving DecidableEq, Repr

/-- `self._vec_.pop()`: remove from the right end of the deque (the same end
`append` adds to), or `IndexError` (`none`) when empty. -/
def Queue.pop {V : Type} (s : QState V) : Option (V × QState V) :=
  match s.vec.getLast? with
  | some v => some (v, { s with vec := s.vec.dropLast })
  | none => none

/-- `Queue.get(timeout)` (lines 154-176): try a non-blocking pop; if empty and
done raise `QueueClosed`; otherwise wait once (the events `evs` happen during
that wait), retry the pop, then raise `QueueClosed` or `TimeoutError`.
Returns the value and the post-state on success. -/
def Queue.get {V : Type} (s : QState V) (evs : List (QEvent V)) :
    Except QErr (V × QState V) :=
  match Queue.pop s with
  | some r => Except.ok r
  | none =>
      if s.done then Except.error QErr.closed
      else
        match Queue.pop (applyQEvents evs s) with
        | some r => Except.ok r
        | none =>
            if (applyQEvents evs s).done then Except.error QErr.closed
            else Except.error QErr.timeout

/-- The possible outcomes of `Queue.get_remaining` as written in the source:
`value l` is `return list(self._vec_)`; `retNone` is the bare `return` on line
190 (Python returns `None`); `timeoutErr` is `raise TimeoutError()`;
`typeErr` is the `TypeError` Python raises on `time.time() >= None` when
`timeout is None`; `pending` means the call is still blocked after the
modelled wait rounds. -/
inductive RemRes (V : Type) : Type
  | value (l : List V)
  | retNone
  | timeoutErr
  | typeErr
  | pending
  deriving DecidableEq, Repr

/-- `Queue.get_remaining(timeout)` (lines 178-193).  `timeoutGiven` is whether
`timeout is not None`.  Each wait round supplies the producer events applied
during that wait and whether `time.time() >= end` holds at the post-wait
check.  Faithful to the source: if `self._done_` becomes true during a wait,
the function executes the bare `return` (yielding `None`), not
`return list(self._vec_)`; that last statement runs only when the `while`
guard itself sees `done`. -/
def Queue.get_remaining {V : Type} (timeoutGiven : Bool) :
    QState V → List (List (QEvent V) × Bool) → RemRes V
  | s, rounds =>
      if s.done then RemRes.value s.vec
      else
        match rounds with
        | [] => RemRes.pending
        | (evs, deadlinePassed) :: rest =>
            if (applyQEvents evs s).done then RemRes.retNone
            else if timeoutGiven then
              if deadlinePassed then RemRes.timeoutErr
              else Queue.get_remaining timeoutGiven (applyQEvents evs s) rest
            else RemRes.typeErr

/-! ## ListCollector (closures.py lines 100-124) -/

/-- `ListCollector` instance state: `self._vec_`, `self._done_` and the
`timeout` stored by the constructor (seconds, `None`-able). -/
structure LState (V : Type) where
  vec : List V
  done : Bool
  timeout : Option ℚ

/-- `ListCollector.__init__(timeout)`: empty buffer, open, timeout stored. -/
def ListCollector.init {V : Type} (t : Option ℚ) : LState V :=
  { vec := [], done := false, timeout := t }

/-- `ListCollector.closure`'s `call(x)`: `self._vec_.append(x)`. -/
def ListCollector.call {V : Type} (v : V) (s : LState V) : LState V :=
  { s with vec := s.vec ++ [v] }

/-- `ListCollector.closure`'s `drop()`: `self._done_ = True` and notify. -/
def ListCollector.drop {V : Type} (s : LState V) : LState V :=
  { s with done := true }

/-- Producer actions during a collector wait. -/
inductive LEvent (V : Type) : Type
  | call (v : V)
  | drop

/-- Apply a sequence of producer events to the collector state. -/
def applyLEvents {V : Type} : List (LEvent V) → LState V → LState V
  | [], s => s
  | LEvent.call v :: es, s => applyLEvents es (ListCollector.call v s)
  | LEvent.drop :: es, s => applyLEvents es (ListCollector.drop s)

/-- The input `ListCollector.closure` feeds to `Closure(...)` (line 115). -/
def ListCollector.closureInput {V : Type} : IntoClosure V (LState V) :=
  IntoClosure.pair ListCollector.call ListCollector.drop

/-- `ListCollector.receiver`'s `wait()` (lines 119-123): if not done, block on
the condition once (events `evs` happen during that wait), then return
`self._vec_` unconditionally — there is no error path. -/
def ListCollector.wait {V : Type} (s : LState V) (evs : List (LEvent V)) :
    List V :=
  if s.done then s.vec else (applyLEvents evs s).vec

/-- The timeout `wait()` passes to `self._cv_.wait` (line 122): always
`self.timeout`, the constructor argument — `wait()` takes no parameter. -/
def ListCollector.waitTimeout {V : Type} (s : LState V) : Option ℚ :=
  s.timeout

/-! ## Helper lemmas -/

theorem Queue.pop_nil {V : Type} (d : Bool) :
    Queue.pop ({ vec := [], done := d } : QState V) = none := rfl

theorem Queue.pop_concat {V : Type} (l : List V) (v : V) (d : Bool) :
    Queue.pop { vec := l ++ [v], done := d } = some (v, { vec := l, done := d }) := by
  simp [Queue.pop, List.getLast?_concat, List.dropLast_concat]

theorem Queue.get_call {V : Type} (v : V) (s : QState V) (evs : List (QEvent V)) :
    Queue.get (Queue.call v s) evs = Except.ok (v, s) := by
  obtain ⟨vec, d⟩ := s
  simp [Queue.get, Queue.call, Queue.pop_concat]

theorem applyQEvents_done_drop {V : Type} (evs : List (QEvent V)) (s : QState V) :
    (applyQEvents evs (Queue.drop s)).done = true := by
  induction evs generalizing s with
  | nil => rfl
  | cons e es ih =>
    cases e with
    | call v =>
      show (applyQEvents es (Queue.call v (Queue.drop s))).done = true
      have h : Queue.call v (Queue.drop s) = Queue.drop (Queue.call v s) := rfl
      rw [h]
      exact ih (Queue.call v s)
    | drop =>
      show (applyQEvents es (Queue.drop (Queue.drop s))).done = true
      have h : Queue.drop (Queue.drop s) = Queue.drop s := rfl
      rw [h]
      exact ih s

theorem applyLEvents_done_drop {V : Type} (evs : List (LEvent V)) (s : LState V) :
    (applyLEvents evs (ListCollector.drop s)).done = true := by
  induction evs generalizing s with
  | nil => rfl
  | cons e es ih =>
    cases e with
    | call v =>
      show (applyLEvents es (ListCollector.call v (ListCollector.drop s))).done = true
      have h : ListCollector.call v (ListCollector.drop s) =
          ListCollector.drop (ListCollector.call v s) := rfl
      rw [h]
      exact ih (ListCollector.call v s)
    | drop =>
      show (applyLEvents es (ListCollector.drop (ListCollector.drop s))).done = true
      have h : ListCollector.drop (ListCollector.drop s) = ListCollector.drop s := rfl
      rw [h]
      exact ih s

theorem applyLEvents_map_call {V : Type} (l : List V) (s : LState V) :
    applyLEvents (l.map LEvent.call) s = { s with vec := s.vec ++ l } := by
  induction l generalizing s with
  | nil => simp [applyLEvents]
  | cons v vs ih =>
    show applyLEvents (vs.map LEvent.call) (ListCollector.call v s) = _
    rw [ih (ListCollector.call v s)]
    simp [ListCollector.call]

theorem applyLEvents_timeout {V : Type} (evs : List (LEvent V)) (s : LState V) :
    (applyLEvents evs s).timeout = s.timeout := by
  induction evs generalizing s with
  | nil => rfl
  | cons e es ih =>
    cases e with
    | call v => exact ih (ListCollector.call v s)
    | drop => exact ih (ListCollector.drop s)

theorem applyLEvents_append {V : Type} (a b : List (LEvent V)) (s : LState V) :
    applyLEvents (a ++ b) s = applyLEvents b (applyLEvents a s) := by
  induction a generalizing s with
  | nil => rfl
  | cons e es ih =>
    cases e with
    | call v => exact ih (ListCollector.call v s)
    | drop => exact ih (ListCollector.drop s)

/-! ## Claim theorems -/

/-- C1 (evidence of the code bug): a `get_remaining(None)` that blocks on a
non-closed queue holding `[1, 2]` and is then woken by `drop()` hits the bare
`return` on line 190 and yields `None` (`retNone`), not the remaining buffer
`[1, 2]`.  Only when the queue is already closed at the `while` guard does it
return `list(self._vec_)` — including `[]` after a full drain. -/
theorem get_remaining_none_on_drop_wakeup :
    Queue.get_remaining false ({ vec := [1, 2], done := false } : QState Nat)
        [([QEvent.drop], false)] = RemRes.retNone
  ∧ Queue.get_remaining false ({ vec := [1, 2], done := true } : QState Nat) []
        = RemRes.value [1, 2]
  ∧ Queue.get_remaining false ({ vec := [], done := true } : QState Nat) []
        = RemRes.value [] := by
  refine ⟨?_, rfl, rfl⟩
  rfl

/-- Unfolding of `Queue.get` on an empty, open queue: the result is decided by
the state the consumer wakes to after the single wait. -/
theorem Queue.get_nil_open {V : Type} (evs : List (QEvent V)) (T : QState V)
    (hT : applyQEvents evs { vec := [], done := false } = T) :
    Queue.get ({ vec := [], done := false } : QState V) evs =
      (match Queue.pop T with
       | some r => Except.ok r
       | none =>
          if T.done then Except.error QErr.closed else Except.error QErr.timeout) := by
  subst hT
  rfl

/-- C2: `Queue.get` raises `QueueClosed` exactly when the buffer is empty and
the queue closed (at the pre-wait check or the post-wait check), raises
`TimeoutError` exactly when the buffer is still empty after the wait and the
queue is not closed, and on a non-empty buffer returns the buffered value
immediately — the result does not depend on the wait events at all. -/
theorem queue_get_spec {V : Type} (s : QState V) (evs : List (QEvent V)) :
    (Queue.get s evs = Except.error QErr.closed ↔
      s.vec = [] ∧ (s.done = true ∨
        ((applyQEvents evs s).vec = [] ∧ (applyQEvents evs s).done = true)))
  ∧ (Queue.get s evs = Except.error QErr.timeout ↔
      s.vec = [] ∧ s.done = false ∧
        (applyQEvents evs s).vec = [] ∧ (applyQEvents evs s).done = false)
  ∧ (∀ (l : List V) (v : V), s.vec = l ++ [v] →
      Queue.get s evs = Except.ok (v, { vec := l, done := s.done })) := by
  obtain ⟨vec, d⟩ := s
  rcases List.eq_nil_or_concat vec with h | ⟨L, b, h⟩
  · subst h
    cases d with
    | true =>
      refine ⟨by simp [Queue.get, Queue.pop], by simp [Queue.get, Queue.pop], ?_⟩
      intro l v hv
      simp at hv
    | false =>
      obtain ⟨T, hT⟩ : ∃ T, applyQEvents evs ({ vec := [], done := false } : QState V) = T :=
        ⟨_, rfl⟩
      rw [hT, Queue.get_nil_open evs T hT]
      obtain ⟨tvec, td⟩ := T
      rcases List.eq_nil_or_concat tvec with h2 | ⟨M, c, h2⟩
      · subst h2
        cases td with
        | true =>
          refine ⟨by simp [Queue.pop], by simp [Queue.pop], ?_⟩
          intro l v hv
          simp at hv
        | false =>
          refine ⟨by simp [Queue.pop], by simp [Queue.pop], ?_⟩
          intro l v hv
          simp at hv
      · subst h2
        simp only [List.concat_eq_append]
        refine ⟨by simp [Queue.pop_concat], by simp [Queue.pop_concat], ?_⟩
        intro l v hv
        simp at hv
  · subst h
    simp only [List.concat_eq_append]
    have hget : Queue.get ({ vec := L ++ [b], done := d } : QState V) evs =
        Except.ok (b, { vec := L, done := d }) := by
      simp [Queue.get, Queue.pop_concat]
    refine ⟨by rw [hget]; simp, by rw [hget]; simp, ?_⟩
    intro l v hv
    have hlen : ([b] : List V).length = ([v] : List V).length := rfl
    obtain ⟨hL, hbv⟩ := List.append_inj' hv hlen
    injection hbv with hb _
    subst hb
    subst hL
    exact hget

/-- Witness for C2: a queue holding `5`, open, returns `5` immediately. -/
theorem queue_get_spec_witness :
    Queue.get ({ vec := [5], done := false } : QState Nat) [] =
      Except.ok (5, { vec := [], done := false }) :=
  (queue_get_spec ({ vec := [5], done := false } : QState Nat) []).2.2 [] 5 rfl

/-- C3: after `call(v1); ...; call(vn); drop()` all complete before `wait` is
invoked, `ListCollector`'s receiver `wait` returns exactly `[v1, ..., vn]` in
append order, whatever happens during the (not entered) wait. -/
theorem list_collector_wait_append_order {V : Type} (vs : List V) (t : Option ℚ)
    (evs : List (LEvent V)) :
    ListCollector.wait
      (applyLEvents (vs.map LEvent.call ++ [LEvent.drop]) (ListCollector.init t))
      evs = vs := by
  rw [applyLEvents_append, applyLEvents_map_call]
  simp [applyLEvents, ListCollector.wait, ListCollector.drop, ListCollector.init]

/-- C4: `drop` is idempotent for `Queue` and `ListCollector` (a second `drop`
leaves the state of the first `drop` unchanged); the closures they build pass
`drop` through unchanged, and the default `drop` a bare callable gets
(`lambda: None`, here the identity on the effect state) is idempotent too. -/
theorem drop_idempotent {V α σ : Type} (s : QState V) (ls : LState V)
    (f : α → σ → σ) :
    Queue.drop (Queue.drop s) = Queue.drop s
  ∧ ListCollector.drop (ListCollector.drop ls) = ListCollector.drop ls
  ∧ closureInit (Queue.closureInput (V := V)) =
      Except.ok { call := Queue.call, drop := Queue.drop }
  ∧ closureInit (ListCollector.closureInput (V := V)) =
      Except.ok { call := ListCollector.call, drop := ListCollector.drop }
  ∧ closureInit (IntoClosure.callableOnly f) =
      Except.ok { call := f, drop := fun x => x }
  ∧ ∀ x : σ, (fun y : σ => y) ((fun y : σ => y) x) = (fun y : σ => y) x :=
  ⟨rfl, rfl, rfl, rfl, rfl, fun _ => rfl⟩

/-- C5: every accepted input shape of `Closure` yields exactly the wrapped
`call`/`drop` (with `drop` the no-op for a bare callable), and an unsupported
shape raises the `TypeError` — through `Handler`'s funnel as well. -/
theorem closure_normalization_spec {α σ ρ : Type} (c : ClosureRep α σ)
    (f : α → σ → σ) (d : σ → σ) :
    closureInit (IntoClosure.handler c) = Except.ok c
  ∧ closureInit (IntoClosure.closureIn c) = Except.ok c
  ∧ closureInit (IntoClosure.pair f d) = Except.ok { call := f, drop := d }
  ∧ closureInit (IntoClosure.callableOnly f) =
      Except.ok { call := f, drop := fun s => s }
  ∧ closureInit (IntoClosure.other : IntoClosure α σ) =
      Except.error CErr.unsupportedInputShape
  ∧ handlerInit (IntoHandler.other : IntoHandler α σ ρ) =
      Except.error CErr.unsupportedInputShape :=
  ⟨rfl, rfl, rfl, rfl, rfl, rfl⟩

/-- C6: with a type adaptor `ta` over an underlying call `g`, the normalized
call is `fun x => g (ta x)` — the adaptor is applied first, `g (ta x)`, never
`ta (g x)` — and `drop` is returned unchanged, for every accepted shape. -/
theorem type_adaptor_composition {α β σ : Type} (ta : β → α) (c : ClosureRep α σ)
    (g : α → σ → σ) (d : σ → σ) (x : β) (st : σ) :
    closureInitAdapted ta (IntoClosure.callableOnly g) =
      Except.ok { call := fun b => g (ta b), drop := fun s => s }
  ∧ closureInitAdapted ta (IntoClosure.pair g d) =
      Except.ok { call := fun b => g (ta b), drop := d }
  ∧ closureInitAdapted ta (IntoClosure.closureIn c) =
      Except.ok { call := fun b => c.call (ta b), drop := c.drop }
  ∧ closureInitAdapted ta (IntoClosure.handler c) =
      Except.ok { call := fun b => c.call (ta b), drop := c.drop }
  ∧ (fun b => g (ta b)) x st = g (ta x) st :=
  ⟨rfl, rfl, rfl, rfl, rfl⟩

/-- C7: the queue pops from the end it appends to: a `get` right after
`call v` returns `v` itself (most-recently-appended first, independent of the
events during any wait, i.e. without blocking), and on a buffer `l ++ [v]`
`get` removes the appended end `v`, leaving `l`. -/
theorem queue_pop_lifo {V : Type} (s : QState V) (v : V) (l : List V) (d : Bool)
    (evs : List (QEvent V)) :
    Queue.get (Queue.call v s) evs = Except.ok (v, s)
  ∧ Queue.get { vec := l ++ [v], done := d } evs =
      Except.ok (v, { vec := l, done := d }) := by
  refine ⟨Queue.get_call v s evs, ?_⟩
  simp [Queue.get, Queue.pop_concat]

/-- C8: `ListCollector`'s `wait` has no error path: it always returns the
buffer snapshot — after a wait during which only appends happened (the timeout
case) it returns the accumulated prefix `pre ++ post`, on an already-closed
collector it returns the buffer directly, and in general it returns the
`vec` of the state at return time. -/
theorem list_collector_wait_no_error {V : Type} (pre post : List V) (t : Option ℚ)
    (evs : List (LEvent V)) :
    ListCollector.wait { vec := pre, done := false, timeout := t }
      (post.map LEvent.call) = pre ++ post
  ∧ ListCollector.wait { vec := pre, done := true, timeout := t } evs = pre
  ∧ ∀ (s : LState V) (es : List (LEvent V)),
      ListCollector.wait s es =
        (if s.done then s.vec else (applyLEvents es s).vec) := by
  refine ⟨?_, rfl, fun s es => rfl⟩
  simp [ListCollector.wait, applyLEvents_map_call]

/-- C9: the closed flag is monotone — `call` never changes it, `drop` sets it,
and no event sequence after a `drop` ever unsets it — while values stay
retrievable after closing (`get` on a closed, non-empty queue returns a value,
not `QueueClosed`), and `call` after close still delivers a retrievable value;
likewise for `ListCollector`, whose `wait` returns the buffer after close,
including values appended after close. -/
theorem closed_monotone_retrievable {V : Type} (s : QState V) (ls : LState V)
    (v : V) (l : List V) (evs : List (QEvent V)) (les : List (LEvent V)) :
    (Queue.call v s).done = s.done
  ∧ (Queue.drop s).done = true
  ∧ (applyQEvents evs (Queue.drop s)).done = true
  ∧ Queue.get { vec := l ++ [v], done := true } evs =
      Except.ok (v, { vec := l, done := true })
  ∧ Queue.get (Queue.call v (Queue.drop s)) evs = Except.ok (v, Queue.drop s)
  ∧ (ListCollector.call v ls).done = ls.done
  ∧ (ListCollector.drop ls).done = true
  ∧ (applyLEvents les (ListCollector.drop ls)).done = true
  ∧ ListCollector.wait (ListCollector.drop ls) les = ls.vec
  ∧ ListCollector.wait (ListCollector.call v (ListCollector.drop ls)) les =
      ls.vec ++ [v] := by
  refine ⟨rfl, rfl, applyQEvents_done_drop evs s, ?_,
    Queue.get_call v (Queue.drop s) evs, rfl, rfl, applyLEvents_done_drop les ls,
    rfl, rfl⟩
  simp [Queue.get, Queue.pop_concat]

/-- C10: the timeout `ListCollector`'s receiver `wait` hands to the condition
wait is always the constructor argument: it is fixed at construction, no
operation ever changes it, and `wait` takes no per-call timeout. -/
theorem receiver_timeout_fixed {V : Type} (t : Option ℚ) (ops : List (LEvent V)) :
    ListCollector.waitTimeout (applyLEvents ops (ListCollector.init (V := V) t)) = t
  ∧ ∀ (s : LState V) (es : List (LEvent V)),
      ListCollector.waitTimeout (applyLEvents es s) = ListCollector.waitTimeout s :=
  ⟨applyLEvents_timeout ops (ListCollector.init t),
   fun s es => applyLEvents_timeout es s⟩

end Zenoh
